import Mathlib

/-
Verification of the reputation (trust-scoring) engine and the consensus
(cross-validation) engine of the zeek-oracle-expert repository.

Embedding conventions
=====================
JavaScript numbers are modelled as exact rationals (`ℚ`).  The two places
where the floating-point semantics is essential are modelled explicitly:

* division by zero: in JS, `0/0` is `NaN` and `x/0` (x ≠ 0) is `±Infinity`;
  every such value poisons all downstream arithmetic, every comparison with
  it is false, and `Math.min`/`Math.max`/`Math.round` propagate `NaN`.
  In the code paths modelled here a division by zero always ends up either
  propagated to the final result or absorbed by a `> 0` comparison that
  then takes the false branch, so it is modelled as `Option` (`none` for a
  poisoned value) or by an explicit guard taking the branch the poisoned
  comparison would take.

* out-of-bounds array reads: `a[i]` for `i ≥ a.length` is `undefined`,
  and arithmetic on it yields `NaN`; see `calculateCorrelation` below.

`Math.round` is round-half-toward-positive-infinity, modelled as
`fun q => ⌊q + 1/2⌋`.  `Math.exp` forces the decayed-accuracy computation
into `ℝ`.  Timestamps (`Date.now()`) are passed in as explicit parameters.
-/

namespace ZeekOracle

/-- JS `Math.round`: round half toward +∞. -/
def jround (q : ℚ) : ℤ := ⌊q + 1/2⌋

/-- JS `Math.round` on a real intermediate value. -/
noncomputable def jroundR (x : ℝ) : ℤ := ⌊x + 1/2⌋

/-- JS division where the denominator may be zero.  `x/0` is `NaN` (for
`x = 0`) or `±Infinity`; in the modelled code both poison every later
computation in the same way, so both are mapped to `none`. -/
def jdiv (a b : ℚ) : Option ℚ := if b = 0 then none else some (a / b)

/-! ## Trust Scoring Service (`TrustScorer`)

Shallow embedding of `src/unnamed/part_009`. -/

/-- One historical accuracy record: `{ timestamp, score }`. -/
structure AccuracyHistory where
  timestamp : ℚ
  score : ℚ
deriving DecidableEq

/-- `TrustScoreParams`: all fields are optional in the source (`?`), with
the `??` defaults applied inside `calculateTrustScore`.  The unused fields
`domainExpertise` and `totalSubmissions` are omitted. -/
structure TrustScoreParams where
  baseScore : Option ℚ
  accuracyHistory : Option (List AccuracyHistory)
  consistencyFactor : Option ℚ
  validationSuccessRate : Option ℚ

/-- `TrustScoreWeights`: weights for the three factors. -/
structure TrustScoreWeights where
  accuracy : ℚ
  consistency : ℚ
  validation : ℚ
deriving DecidableEq

/-- `Partial<TrustScoreWeights>`: the caller may supply any subset. -/
structure PartialTrustScoreWeights where
  accuracy : Option ℚ
  consistency : Option ℚ
  validation : Option ℚ

/-- The `defaultWeights` field of `TrustScorer`. -/
def defaultWeights : TrustScoreWeights := ⟨6/10, 2/10, 2/10⟩

/-- The `decayRate` field of `TrustScorer` (0.05 per day). -/
def decayRate : ℚ := 5/100

/-- `TrustScorer.normalizeWeights`: divides each weight by the total.
The source has no guard for a zero total: in that case each component is
`0/0 = NaN` (or `±Infinity` for a nonzero numerator), modelled as `none`
via `jdiv`. -/
def normalizeWeights (weights : TrustScoreWeights) : Option TrustScoreWeights :=
  let total := weights.accuracy + weights.consistency + weights.validation
  match jdiv weights.accuracy total, jdiv weights.consistency total,
      jdiv weights.validation total with
  | some a, some c, some v => some ⟨a, c, v⟩
  | _, _, _ => none

/-- `TrustScorer.calculateDecayedAccuracy`: time-decayed weighted average of
the history scores, weight `e^(-decayRate * ageInDays)`.  `now` stands for
`Date.now()`. -/
noncomputable def calculateDecayedAccuracy (now : ℚ) (history : List AccuracyHistory) : ℤ :=
  if history = [] then 500
  else
    let p : ℝ × ℝ := history.foldl
      (fun acc entry =>
        let ageInDays : ℚ := (now - entry.timestamp) / (24 * 60 * 60 * 1000)
        let weight : ℝ := Real.exp (-(decayRate : ℝ) * (ageInDays : ℝ))
        (acc.1 + (entry.score : ℝ) * weight, acc.2 + weight))
      (0, 0)
    if 0 < p.2 then jroundR (p.1 / p.2) else 500

/-- `TrustScorer.calculateTrustScore`: weighted sum of the decayed accuracy
factor, the consistency factor and the validation success rate, clamped to
[0, 1000].  Returns `none` when `normalizeWeights` produces `NaN`
components (zero weight total), which in JS poisons every weighted
component, the sum, and both clamps, so the function returns `NaN`. -/
noncomputable def calculateTrustScore (params : TrustScoreParams)
    (weights : PartialTrustScoreWeights) (now : ℚ) : Option ℤ :=
  let accuracyHistory := params.accuracyHistory.getD []
  let consistencyFactor := params.consistencyFactor.getD 500
  let validationSuccessRate := params.validationSuccessRate.getD 500
  match normalizeWeights
      ⟨weights.accuracy.getD defaultWeights.accuracy,
        weights.consistency.getD defaultWeights.consistency,
        weights.validation.getD defaultWeights.validation⟩ with
  | none => none
  | some finalWeights =>
    let accuracyFactor := calculateDecayedAccuracy now accuracyHistory
    let weightedAccuracy := jroundR ((accuracyFactor : ℝ) * (finalWeights.accuracy : ℝ))
    let weightedConsistency := jroundR ((consistencyFactor : ℝ) * (finalWeights.consistency : ℝ))
    let weightedValidation :=
      jroundR ((validationSuccessRate : ℝ) * (finalWeights.validation : ℝ))
    some (min 1000 (max 0 (weightedAccuracy + weightedConsistency + weightedValidation)))

/-- `TrustScorer.updateTrustScore`: linear blend of the current score toward
new evidence, with the weight clamped to [0, 1] and the rounded result
clamped to [0, 1000]. -/
def updateTrustScore (currentScore newEvidence evidenceWeight : ℚ) : ℤ :=
  let normalizedWeight := max 0 (min 1 evidenceWeight)
  let updatedScore :=
    jround (currentScore * (1 - normalizedWeight) + newEvidence * normalizedWeight)
  min 1000 (max 0 updatedScore)

/-- `TrustScorer.linearRegression`: ordinary least squares over paired
lists.  The slope guards a zero denominator exactly as the source does. -/
def linearRegression (x y : List ℚ) : ℚ × ℚ :=
  let meanX := x.sum / (x.length : ℚ)
  let meanY := y.sum / (y.length : ℚ)
  let p : ℚ × ℚ := (List.range x.length).foldl
    (fun acc i =>
      (acc.1 + (x.getD i 0 - meanX) * (y.getD i 0 - meanY),
        acc.2 + (x.getD i 0 - meanX) ^ 2))
    (0, 0)
  let slope := if p.2 ≠ 0 then p.1 / p.2 else 0
  (slope, meanY - slope * meanX)

/-- `TrustScorer.predictTrustScoreTrend`: with fewer than 3 history points,
return the last known score (500 when the history is empty); otherwise fit
a least-squares line and evaluate it `daysToPredict` days after `now`,
rounded and clamped to [0, 1000].  In exact arithmetic the regression
cannot throw, so the `try/catch` of the source is not represented. -/
def predictTrustScoreTrend (history : List AccuracyHistory)
    (daysToPredict : ℚ) (now : ℚ) : ℚ :=
  if history.length < 3 then
    if 0 < history.length then (history.getD (history.length - 1) ⟨0, 0⟩).score else 500
  else
    let x := history.map (·.timestamp)
    let y := history.map (·.score)
    let regression := linearRegression x y
    let futureTimestamp := now + daysToPredict * (24 * 60 * 60 * 1000)
    let predictedScore := regression.1 * futureTimestamp + regression.2
    ((min 1000 (max 0 (jround predictedScore)) : ℤ) : ℚ)

/-! ## Cross-Validator Service (`CrossValidator`)

Shallow embedding of
`src/zk-oracle-solana/off-chain/cross-validator/src/services/crossValidator.ts`. -/

/-- One validator opinion: `{ validator, result, trustScore, timestamp }`
(the optional `evidence` blob plays no role in the modelled code). -/
structure Validation where
  validator : String
  result : Bool
  trustScore : ℚ
  timestamp : ℤ
deriving DecidableEq

/-- The aggregated result of one validation round. -/
structure ValidationResult where
  dataId : String
  isValid : Bool
  weightedPositive : ℚ
  weightedNegative : ℚ
  consensusRatio : ℚ
  validations : List Validation
  timestamp : ℤ
deriving DecidableEq

/-- Consensus configuration.  The source merges a `Partial<ConsensusConfig>`
over `defaultConfig` with the spread operator; the merged record is modelled
directly, so every theorem quantifies over the merged configuration. -/
structure ConsensusConfig where
  minValidations : ℕ
  consensusThreshold : ℚ
  timeoutMs : ℚ
deriving DecidableEq

/-- The `defaultConfig` field of `CrossValidator`. -/
def defaultConfig : ConsensusConfig := ⟨3, 66/100, 30000⟩

/-- The accumulation loop of `aggregateValidations`: one pass over the
opinions, adding each trust score to the positive or the negative bucket
according to the boolean result. -/
def sumWeights (validations : List Validation) : ℚ × ℚ :=
  validations.foldl
    (fun acc v =>
      if v.result then (acc.1 + v.trustScore, acc.2) else (acc.1, acc.2 + v.trustScore))
    (0, 0)

/-- `CrossValidator.aggregateValidations`.  `now` stands for `Date.now()`.
With fewer opinions than `config.minValidations` the insufficient result is
returned as an ordinary value; otherwise opinions are weighted by trust
score and the consensus ratio compared against the threshold. -/
def aggregateValidations (dataId : String) (validations : List Validation)
    (config : ConsensusConfig) (now : ℤ) : ValidationResult :=
  if validations.length < config.minValidations then
    ⟨dataId, false, 0, 0, 0, validations, now⟩
  else
    let p := sumWeights validations
    let totalWeight := p.1 + p.2
    let consensusRatio := if 0 < totalWeight then p.1 / totalWeight else 0
    let isValid := decide (config.consensusThreshold ≤ consensusRatio)
    ⟨dataId, isValid, p.1, p.2, consensusRatio, validations, now⟩

/-- The vote-pattern collection of `detectCollusion`: `patterns[id]` is the
ordered list of boolean votes by `id` taken from every entry of every past
result (results in order, entries within a result in order).  The source
builds these arrays by pushing while iterating `validations`, which yields
exactly this flattened filter. -/
def votePattern (validations : List ValidationResult) (id : String) : List Bool :=
  ((validations.flatMap (·.validations)).filter (fun v => v.validator = id)).map (·.result)

/-- The {0,1} coding `val => (val ? 1 : 0)` used by `calculateCorrelation`. -/
def numList (a : List Bool) : List ℚ := a.map (fun val => if val then 1 else 0)

/-- The list mean `l.reduce(sum) / l.length` used by `calculateCorrelation`
and `linearRegression`. -/
def listMean (l : List ℚ) : ℚ := l.sum / (l.length : ℚ)

/-- The loop value `numA[i] - meanA` of `calculateCorrelation`, as a
function of the index. -/
def diffAt (a : List Bool) (i : ℕ) : ℚ := (numList a).getD i 0 - listMean (numList a)

/-- The three accumulators of the loop inside `calculateCorrelation`:
`(numerator, denominatorA, denominatorB)`, iterating over the indices of
the first array; `getD i 0` matches `numA[i]` and `numB[i]` for the index
range in which the loop body is reached with both reads in bounds. -/
def corrComps (a b : List Bool) : ℚ × ℚ × ℚ :=
  let numA := numList a
  let numB := numList b
  let meanA := listMean numA
  let meanB := listMean numB
  (List.range a.length).foldl
    (fun acc i =>
      let diffA := numA.getD i 0 - meanA
      let diffB := numB.getD i 0 - meanB
      (acc.1 + diffA * diffB, acc.2.1 + diffA * diffA, acc.2.2 + diffB * diffB))
    (0, 0, 0)

/-- The `denominatorA` accumulator of `calculateCorrelation` for an array
compared against itself: the sum of squared deviations from the mean. -/
def varSum (a : List Bool) : ℚ :=
  ((List.range a.length).map (fun i => diffAt a i * diffAt a i)).sum

/-- `CrossValidator.calculateCorrelation`: Pearson correlation of two
{0,1}-coded boolean arrays.  The guard `0 < a.length ∧ a.length ≤ b.length`
models the JS `NaN` semantics of the source exactly: when `a` is empty the
means are `0/0 = NaN` but the loop body never runs, all three accumulators
stay 0, the denominator is `√0 = 0` and the `> 0` comparison fails, so the
source returns 0; when `a` is longer than `b` the loop reads `b[i]` out of
bounds (`undefined`), `diffB` is `NaN`, the denominator is `NaN`, the `> 0`
comparison on `NaN` is false and the source again returns 0. -/
noncomputable def calculateCorrelation (a b : List Bool) : ℝ :=
  if 0 < a.length ∧ a.length ≤ b.length then
    let c := corrComps a b
    let denominator := Real.sqrt ((c.2.1 : ℝ) * (c.2.2 : ℝ))
    if 0 < denominator then (c.1 : ℝ) / denominator else 0
  else 0

/-- Result record of `detectCollusion`. -/
structure CollusionReport where
  detected : Bool
  probability : ℝ
  suspects : List String

/-- The ordered list of index pairs `(i, j)` with `i < j < n`, as visited
by the nested pair loop of `detectCollusion`. -/
def pairIndices (n : ℕ) : List (ℕ × ℕ) :=
  (List.range n).flatMap (fun i => ((List.range n).filter (fun j => i < j)).map (fun j => (i, j)))

/-- One step of the pair loop of `detectCollusion`, updating the suspects
list and the running maximum correlation.  A pair is skipped when the
smaller of the two validators' individual vote counts is below 5 (the
source's `minValidations` check — note: individual counts, not shared
claims); a pair whose correlation exceeds 0.9 has both members appended to
the suspects (deduplicated, A before B) and the maximum updated. -/
noncomputable def collusionStep (validations : List ValidationResult)
    (validatorIds : List String) (acc : List String × ℝ) (p : ℕ × ℕ) :
    List String × ℝ :=
  let validatorA := validatorIds.getD p.1 ""
  let validatorB := validatorIds.getD p.2 ""
  if min (votePattern validations validatorA).length
      (votePattern validations validatorB).length < 5 then acc
  else
    let correlation :=
      calculateCorrelation (votePattern validations validatorA)
        (votePattern validations validatorB)
    if (9/10 : ℝ) < correlation then
      let s1 := if validatorA ∈ acc.1 then acc.1 else acc.1 ++ [validatorA]
      let s2 := if validatorB ∈ s1 then s1 else s1 ++ [validatorB]
      (s2, max acc.2 correlation)
    else acc

/-- `CrossValidator.detectCollusion`: with at least 5 past results and at
least 2 candidate validators, visit every index pair `i < j`, flag pairs
whose vote-pattern correlation exceeds 0.9, and report the deduplicated
suspects together with the maximum correlation among flagged pairs. -/
noncomputable def detectCollusion (validations : List ValidationResult)
    (validatorIds : List String) : CollusionReport :=
  if validations.length < 5 ∨ validatorIds.length < 2 then ⟨false, 0, []⟩
  else
    let r := (pairIndices validatorIds.length).foldl
      (collusionStep validations validatorIds) ([], 0)
    ⟨decide (0 < r.1.length), r.2, r.1⟩

/-! ### Consensus proof generation (`generateConsensusProof` / `hashValidations`) -/

/-- JS template interpolation of a boolean. -/
def jsBoolString (b : Bool) : String := if b then "true" else "false"

/-- JS template interpolation of a number.  In the modelled system trust
scores are integers, and an integer-valued JS number prints as its decimal
integer; the non-integer branch is an injective fallback that never
coincides with an integer rendering. -/
def jsNumString (q : ℚ) : String :=
  if q.den = 1 then toString q.num else toString q.num ++ "/" ++ toString q.den

/-- The per-opinion fragment of `hashValidations`:
`validator + ":" + result + ":" + trustScore`. -/
def validationEntry (v : Validation) : String :=
  v.validator ++ ":" ++ jsBoolString v.result ++ ":" ++ jsNumString v.trustScore

/-- Lexicographic char-code comparison of strings as char lists: the
`a.localeCompare(b) ≤ 0` order of the sort comparator, which for the ASCII
identifiers in scope is plain lexicographic code-unit order. -/
def charListLe : List Char → List Char → Bool
  | [], _ => true
  | _ :: _, [] => false
  | a :: as, b :: bs =>
    if a.toNat < b.toNat then true
    else if b.toNat < a.toNat then false
    else charListLe as bs

/-- String comparison by char codes (see `charListLe`). -/
def stringLe (a b : String) : Bool := charListLe a.data b.data

/-- The sort inside `hashValidations`:
`[...validations].sort((a, b) => a.validator.localeCompare(b.validator))`.
`Array.prototype.sort` is a stable sort ordered by the comparator, which is
exactly insertion sort by the key. -/
def sortByValidator (validations : List Validation) : List Validation :=
  List.insertionSort (fun a b => stringLe a.validator b.validator = true) validations

/-- Wrap an integer to a signed 32-bit value, as the JS `|`, `&`, `<<`
operators do (`ToInt32`). -/
def toInt32 (n : ℤ) : ℤ := (n + 2 ^ 31) % 2 ^ 32 - 2 ^ 31

/-- One iteration of the JS string-hash loop:
`hash = ((hash << 5) - hash) + charCode; hash = hash & hash`.
The shift operates on (and wraps to) int32; the subtraction and addition
are exact; the final `& hash` wraps the result back to int32. -/
def hashStringStep (hash : ℤ) (c : Char) : ℤ :=
  toInt32 (toInt32 (hash * 32) - hash + (c.toNat : ℤ))

/-- The accumulated 32-bit string hash used by `hashValidations`. -/
def jsStringHash (s : String) : ℤ := s.toList.foldl hashStringStep 0

/-- `Math.abs(hash).toString(16).padStart(8, "0")`. -/
def toHexPadded (n : ℕ) : String :=
  let s := String.mk (Nat.toDigits 16 n)
  if s.length < 8 then String.mk (List.replicate (8 - s.length) (Char.ofNat 48)) ++ s else s

/-- `CrossValidator.hashValidations`: join the sorted per-opinion fragments
with `"|"` and hash the resulting string. -/
def hashValidations (validations : List Validation) : String :=
  let sortedValidations := sortByValidator validations
  let validationString := String.intercalate "|" (sortedValidations.map validationEntry)
  toHexPadded (jsStringHash validationString).natAbs

/-- The `proofData` record serialized by `generateConsensusProof`.
`JSON.stringify` on this fixed-shape object is deterministic and injective
in the field values, so `Buffer` equality of the source's output coincides
with equality of this record. -/
structure ProofData where
  dataId : String
  consensusRatio : ℚ
  validationCount : ℕ
  timestamp : ℤ
  validationsHash : String
deriving DecidableEq

/-- `CrossValidator.generateConsensusProof`: the commitment content —
data id, consensus ratio, opinion count, timestamp, and the hash of the
sorted opinions. -/
def generateConsensusProof (result : ValidationResult) : ProofData :=
  ⟨result.dataId, result.consensusRatio, result.validations.length, result.timestamp,
    hashValidations result.validations⟩

/-! ### Claim-side notions used to state the collusion claims

The collusion claims speak about "claims in common" between two
validators; the source never computes that quantity, so it is defined here
from the claims' words, for stating them only. -/

/-- Whether validator `id` submitted an opinion inside past result `r`. -/
def specParticipates (r : ValidationResult) (id : String) : Bool :=
  r.validations.any (fun v => v.validator = id)

/-- The number of past results in which `id` participates. -/
def specParticipationCount (validations : List ValidationResult) (id : String) : ℕ :=
  (validations.filter (fun r => specParticipates r id)).length

/-- The number of past results in which both validators participate: the
"claims in common" of the collusion claims. -/
def specSharedClaimCount (validations : List ValidationResult) (a b : String) : ℕ :=
  (validations.filter (fun r => specParticipates r a && specParticipates r b)).length

/-- Whether the pair loop of `detectCollusion` flags index pair `p`:
the pair is visited, passes the count check, and its correlation exceeds
0.9. -/
noncomputable def pairFlagged (validations : List ValidationResult)
    (validatorIds : List String) (p : ℕ × ℕ) : Bool :=
  let validatorA := validatorIds.getD p.1 ""
  let validatorB := validatorIds.getD p.2 ""
  if min (votePattern validations validatorA).length
      (votePattern validations validatorB).length < 5 then false
  else
    decide ((9/10 : ℝ) < calculateCorrelation (votePattern validations validatorA)
      (votePattern validations validatorB))

/-- The correlation the pair loop computes for index pair `p`. -/
noncomputable def pairCorrelation (validations : List ValidationResult)
    (validatorIds : List String) (p : ℕ × ℕ) : ℝ :=
  calculateCorrelation (votePattern validations (validatorIds.getD p.1 ""))
    (votePattern validations (validatorIds.getD p.2 ""))

/-- The maximum correlation over all flagged pairs (0 when none is
flagged), as named by the claims about `probability`. -/
noncomputable def maxFlaggedCorrelation (validations : List ValidationResult)
    (validatorIds : List String) : ℝ :=
  (((pairIndices validatorIds.length).filter (pairFlagged validations validatorIds)).map
    (pairCorrelation validations validatorIds)).foldl max 0

/-! ### Concrete scenarios used as witnesses and counterexamples -/

/-- One past round in which validators A and B both vote `true`. -/
def constantRound : ValidationResult :=
  ⟨"c", true, 1700, 0, 1, [⟨"A", true, 900, 0⟩, ⟨"B", true, 800, 0⟩], 0⟩

/-- Five rounds in which A and B cast byte-identical, constant (all-true)
votes. -/
def constantHistory : List ValidationResult := List.replicate 5 constantRound

/-- Five rounds in which A and B cast byte-identical, non-constant votes
(true, true, false, true, false). -/
def identicalHistory : List ValidationResult :=
  [⟨"c1", true, 0, 0, 0, [⟨"A", true, 900, 0⟩, ⟨"B", true, 800, 0⟩], 0⟩,
    ⟨"c2", true, 0, 0, 0, [⟨"A", true, 900, 0⟩, ⟨"B", true, 800, 0⟩], 0⟩,
    ⟨"c3", false, 0, 0, 0, [⟨"A", false, 900, 0⟩, ⟨"B", false, 800, 0⟩], 0⟩,
    ⟨"c4", true, 0, 0, 0, [⟨"A", true, 900, 0⟩, ⟨"B", true, 800, 0⟩], 0⟩,
    ⟨"c5", false, 0, 0, 0, [⟨"A", false, 900, 0⟩, ⟨"B", false, 800, 0⟩], 0⟩]

/-- Six rounds: A participates in rounds 1-5, B in rounds 2-6, so they
share only 4 rounds — yet each one's collected vote sequence is
(true, true, false, true, false). -/
def staggeredHistory : List ValidationResult :=
  [⟨"c1", true, 0, 0, 0, [⟨"A", true, 900, 0⟩], 0⟩,
    ⟨"c2", true, 0, 0, 0, [⟨"A", true, 900, 0⟩, ⟨"B", true, 800, 0⟩], 0⟩,
    ⟨"c3", false, 0, 0, 0, [⟨"A", false, 900, 0⟩, ⟨"B", true, 800, 0⟩], 0⟩,
    ⟨"c4", true, 0, 0, 0, [⟨"A", true, 900, 0⟩, ⟨"B", false, 800, 0⟩], 0⟩,
    ⟨"c5", false, 0, 0, 0, [⟨"A", false, 900, 0⟩, ⟨"B", true, 800, 0⟩], 0⟩,
    ⟨"c6", false, 0, 0, 0, [⟨"B", false, 800, 0⟩], 0⟩]

/-- Six rounds: A participates in all six, B only in the first five, so
their collected vote-pattern arrays have lengths 6 and 5. -/
def lopsidedHistory : List ValidationResult :=
  [⟨"d1", true, 0, 0, 0, [⟨"A", true, 900, 0⟩, ⟨"B", true, 800, 0⟩], 0⟩,
    ⟨"d2", true, 0, 0, 0, [⟨"A", true, 900, 0⟩, ⟨"B", true, 800, 0⟩], 0⟩,
    ⟨"d3", true, 0, 0, 0, [⟨"A", true, 900, 0⟩, ⟨"B", true, 800, 0⟩], 0⟩,
    ⟨"d4", true, 0, 0, 0, [⟨"A", true, 900, 0⟩, ⟨"B", true, 800, 0⟩], 0⟩,
    ⟨"d5", true, 0, 0, 0, [⟨"A", true, 900, 0⟩, ⟨"B", true, 800, 0⟩], 0⟩,
    ⟨"d6", true, 0, 0, 0, [⟨"A", true, 900, 0⟩], 0⟩]

/-- A validation result in which the same validator id appears twice with
different votes and trust scores. -/
def dupRound₁ : ValidationResult :=
  ⟨"dup", true, 3, 0, 1, [⟨"a", true, 1, 0⟩, ⟨"a", false, 2, 0⟩], 7⟩

/-- The same result content with the two opinions of validator "a"
swapped. -/
def dupRound₂ : ValidationResult :=
  ⟨"dup", true, 3, 0, 1, [⟨"a", false, 2, 0⟩, ⟨"a", true, 1, 0⟩], 7⟩

/-! ## Theorems -/

/-- Claim C1 (divergence evidence): an all-zero caller-supplied weight
triple does NOT fall back to the default weights 0.6/0.2/0.2 — the source's
`normalizeWeights` divides by the zero total, every weighted component and
both clamps become `NaN` (`none`), and `calculateTrustScore` returns `NaN`
instead of a score in [0, 1000], for every input and every timestamp. -/
theorem calculateTrustScore_zero_weights_nan (params : TrustScoreParams) (now : ℚ) :
    calculateTrustScore params ⟨some 0, some 0, some 0⟩ now = none := by
  simp [calculateTrustScore, normalizeWeights, jdiv]

/-- Claim C2: with fewer opinions than `config.minValidations`,
`aggregateValidations` returns the insufficient result — not valid, both
weighted sums 0, ratio 0 — as an ordinary value, whatever the opinions
contain. -/
theorem aggregateValidations_insufficient (dataId : String)
    (validations : List Validation) (config : ConsensusConfig) (now : ℤ)
    (h : validations.length < config.minValidations) :
    aggregateValidations dataId validations config now =
      ⟨dataId, false, 0, 0, 0, validations, now⟩ := by
  simp [aggregateValidations, h]

/-- Witness for C2: two opinions (one of them positive) against the default
minimum of 3. -/
theorem aggregateValidations_insufficient_witness :
    aggregateValidations "claim-1"
        [⟨"alice", true, 900, 10⟩, ⟨"bob", false, 100, 11⟩] defaultConfig 42 =
      ⟨"claim-1", false, 0, 0, 0,
        [⟨"alice", true, 900, 10⟩, ⟨"bob", false, 100, 11⟩], 42⟩ :=
  aggregateValidations_insufficient "claim-1"
    [⟨"alice", true, 900, 10⟩, ⟨"bob", false, 100, 11⟩] defaultConfig 42 (by decide)

/-- The accumulation loop of `aggregateValidations`, started from an
arbitrary accumulator, adds the trust-score sums of the positive and the
negative opinions to the two components. -/
theorem sumWeights_loop (l : List Validation) (acc : ℚ × ℚ) :
    l.foldl
        (fun acc v =>
          if v.result then (acc.1 + v.trustScore, acc.2) else (acc.1, acc.2 + v.trustScore))
        acc =
      (acc.1 + ((l.filter (fun v => v.result)).map (·.trustScore)).sum,
        acc.2 + ((l.filter (fun v => !v.result)).map (·.trustScore)).sum) := by
  induction l generalizing acc with
  | nil => simp
  | cons v t ih =>
    cases hv : v.result <;> simp [hv, ih, add_assoc]

/-- `sumWeights` computes the trust-score sums of the positive and the
negative opinions. -/
theorem sumWeights_eq (l : List Validation) :
    sumWeights l =
      (((l.filter (fun v => v.result)).map (·.trustScore)).sum,
        ((l.filter (fun v => !v.result)).map (·.trustScore)).sum) := by
  simpa using sumWeights_loop l (0, 0)

/-- Claim C3: `aggregateValidations` is invariant under permutation of the
opinion list — the weighted sums, the consensus ratio and the verdict all
agree between a list and any permutation of it, for every config. -/
theorem aggregateValidations_perm (dataId : String) (l₁ l₂ : List Validation)
    (config : ConsensusConfig) (now₁ now₂ : ℤ) (hp : l₁.Perm l₂) :
    (aggregateValidations dataId l₁ config now₁).weightedPositive =
        (aggregateValidations dataId l₂ config now₂).weightedPositive ∧
      (aggregateValidations dataId l₁ config now₁).weightedNegative =
        (aggregateValidations dataId l₂ config now₂).weightedNegative ∧
      (aggregateValidations dataId l₁ config now₁).consensusRatio =
        (aggregateValidations dataId l₂ config now₂).consensusRatio ∧
      (aggregateValidations dataId l₁ config now₁).isValid =
        (aggregateValidations dataId l₂ config now₂).isValid := by
  have hl : l₁.length = l₂.length := hp.length_eq
  have hw : sumWeights l₁ = sumWeights l₂ := by
    rw [sumWeights_eq, sumWeights_eq]
    exact Prod.ext (((hp.filter _).map _).sum_eq) (((hp.filter _).map _).sum_eq)
  unfold aggregateValidations
  rw [hl, hw]
  split <;> simp

/-- Witness for C3: a three-opinion list against a rotation of it. -/
theorem aggregateValidations_perm_witness :
    (aggregateValidations "c" [⟨"a", true, 900, 0⟩, ⟨"b", false, 100, 0⟩, ⟨"c", false, 100, 0⟩]
          defaultConfig 1).weightedPositive =
        (aggregateValidations "c" [⟨"c", false, 100, 0⟩, ⟨"a", true, 900, 0⟩, ⟨"b", false, 100, 0⟩]
          defaultConfig 2).weightedPositive ∧
      (aggregateValidations "c" [⟨"a", true, 900, 0⟩, ⟨"b", false, 100, 0⟩, ⟨"c", false, 100, 0⟩]
          defaultConfig 1).weightedNegative =
        (aggregateValidations "c" [⟨"c", false, 100, 0⟩, ⟨"a", true, 900, 0⟩, ⟨"b", false, 100, 0⟩]
          defaultConfig 2).weightedNegative ∧
      (aggregateValidations "c" [⟨"a", true, 900, 0⟩, ⟨"b", false, 100, 0⟩, ⟨"c", false, 100, 0⟩]
          defaultConfig 1).consensusRatio =
        (aggregateValidations "c" [⟨"c", false, 100, 0⟩, ⟨"a", true, 900, 0⟩, ⟨"b", false, 100, 0⟩]
          defaultConfig 2).consensusRatio ∧
      (aggregateValidations "c" [⟨"a", true, 900, 0⟩, ⟨"b", false, 100, 0⟩, ⟨"c", false, 100, 0⟩]
          defaultConfig 1).isValid =
        (aggregateValidations "c" [⟨"c", false, 100, 0⟩, ⟨"a", true, 900, 0⟩, ⟨"b", false, 100, 0⟩]
          defaultConfig 2).isValid :=
  aggregateValidations_perm "c" _ _ defaultConfig 1 2 (by decide)

/-- Claim C4: for opinion lists drawn from the data model (non-negative
trust scores), the consensus ratio lies in [0, 1], equals 0 when both
weighted sums are 0, and equals `weightedFor / (weightedFor +
weightedAgainst)` otherwise — on both the insufficient path and the
aggregation path. -/
theorem aggregateValidations_ratio_bounds (dataId : String)
    (validations : List Validation) (config : ConsensusConfig) (now : ℤ)
    (h : ∀ v ∈ validations, 0 ≤ v.trustScore) :
    0 ≤ (aggregateValidations dataId validations config now).consensusRatio ∧
      (aggregateValidations dataId validations config now).consensusRatio ≤ 1 ∧
      ((aggregateValidations dataId validations config now).weightedPositive +
            (aggregateValidations dataId validations config now).weightedNegative = 0 →
        (aggregateValidations dataId validations config now).consensusRatio = 0) ∧
      ((aggregateValidations dataId validations config now).weightedPositive +
            (aggregateValidations dataId validations config now).weightedNegative ≠ 0 →
        (aggregateValidations dataId validations config now).consensusRatio =
          (aggregateValidations dataId validations config now).weightedPositive /
            ((aggregateValidations dataId validations config now).weightedPositive +
              (aggregateValidations dataId validations config now).weightedNegative)) := by
  have hwp : 0 ≤ (sumWeights validations).1 := by
    rw [sumWeights_eq]
    refine List.sum_nonneg ?_
    intro x hx
    obtain ⟨v, hv, rfl⟩ := List.mem_map.mp hx
    exact h v (List.mem_of_mem_filter hv)
  have hwn : 0 ≤ (sumWeights validations).2 := by
    rw [sumWeights_eq]
    refine List.sum_nonneg ?_
    intro x hx
    obtain ⟨v, hv, rfl⟩ := List.mem_map.mp hx
    exact h v (List.mem_of_mem_filter hv)
  unfold aggregateValidations
  split
  · simp
  · simp only
    constructor
    · split
      · positivity
      · exact le_refl 0
    refine ⟨?_, ?_, ?_⟩
    · split
      · rename_i htw
        rw [div_le_one htw]
        linarith
      · exact zero_le_one
    · intro h0
      rw [if_neg]
      rw [h0]
      exact lt_irrefl 0
    · intro hne
      have htw : 0 < (sumWeights validations).1 + (sumWeights validations).2 :=
        lt_of_le_of_ne (by linarith) (Ne.symm hne)
      rw [if_pos htw]

/-- Witness for C4: the spec's worked example — trust scores 900 (true),
100 (false), 100 (false). -/
theorem aggregateValidations_ratio_bounds_witness :
    0 ≤ (aggregateValidations "c"
          [⟨"a", true, 900, 0⟩, ⟨"b", false, 100, 0⟩, ⟨"c", false, 100, 0⟩]
          defaultConfig 0).consensusRatio ∧
      (aggregateValidations "c"
          [⟨"a", true, 900, 0⟩, ⟨"b", false, 100, 0⟩, ⟨"c", false, 100, 0⟩]
          defaultConfig 0).consensusRatio ≤ 1 ∧
      ((aggregateValidations "c"
            [⟨"a", true, 900, 0⟩, ⟨"b", false, 100, 0⟩, ⟨"c", false, 100, 0⟩]
            defaultConfig 0).weightedPositive +
          (aggregateValidations "c"
            [⟨"a", true, 900, 0⟩, ⟨"b", false, 100, 0⟩, ⟨"c", false, 100, 0⟩]
            defaultConfig 0).weightedNegative = 0 →
        (aggregateValidations "c"
          [⟨"a", true, 900, 0⟩, ⟨"b", false, 100, 0⟩, ⟨"c", false, 100, 0⟩]
          defaultConfig 0).consensusRatio = 0) ∧
      ((aggregateValidations "c"
            [⟨"a", true, 900, 0⟩, ⟨"b", false, 100, 0⟩, ⟨"c", false, 100, 0⟩]
            defaultConfig 0).weightedPositive +
          (aggregateValidations "c"
            [⟨"a", true, 900, 0⟩, ⟨"b", false, 100, 0⟩, ⟨"c", false, 100, 0⟩]
            defaultConfig 0).weightedNegative ≠ 0 →
        (aggregateValidations "c"
          [⟨"a", true, 900, 0⟩, ⟨"b", false, 100, 0⟩, ⟨"c", false, 100, 0⟩]
          defaultConfig 0).consensusRatio =
          (aggregateValidations "c"
            [⟨"a", true, 900, 0⟩, ⟨"b", false, 100, 0⟩, ⟨"c", false, 100, 0⟩]
            defaultConfig 0).weightedPositive /
            ((aggregateValidations "c"
              [⟨"a", true, 900, 0⟩, ⟨"b", false, 100, 0⟩, ⟨"c", false, 100, 0⟩]
              defaultConfig 0).weightedPositive +
              (aggregateValidations "c"
                [⟨"a", true, 900, 0⟩, ⟨"b", false, 100, 0⟩, ⟨"c", false, 100, 0⟩]
                defaultConfig 0).weightedNegative)) :=
  aggregateValidations_ratio_bounds "c"
    [⟨"a", true, 900, 0⟩, ⟨"b", false, 100, 0⟩, ⟨"c", false, 100, 0⟩]
    defaultConfig 0 (by decide)

/-- Claim C7: with fewer than 3 history points, `predictTrustScoreTrend`
performs no regression and returns the score of the last history entry, or
500 when the history is empty. -/
theorem predictTrustScoreTrend_short (history : List AccuracyHistory)
    (daysToPredict now : ℚ) (h : history.length < 3) :
    predictTrustScoreTrend history daysToPredict now =
      match history.getLast? with
      | none => 500
      | some entry => entry.score := by
  unfold predictTrustScoreTrend
  rw [if_pos h]
  match history with
  | [] => simp
  | e :: t =>
    have hlen : 0 < (e :: t).length := by simp
    rw [if_pos hlen]
    have hidx : (e :: t).length - 1 < (e :: t).length := by omega
    rw [List.getD_eq_getElem?_getD, List.getElem?_eq_getElem hidx,
      show (e :: t).getLast? = (e :: t)[(e :: t).length - 1]? from List.getLast?_eq_getElem? _,
      List.getElem?_eq_getElem hidx]
    simp

/-- Witness for C7: a two-point history returns the most recent score
unchanged. -/
theorem predictTrustScoreTrend_short_witness :
    predictTrustScoreTrend [⟨100, 800⟩, ⟨200, 650⟩] 30 1000 = 650 := by
  have := predictTrustScoreTrend_short [⟨100, 800⟩, ⟨200, 650⟩] 30 1000 (by decide)
  simpa using this

/-- Claim C8: blending a trust score toward identical new evidence is a
no-op — for every integer score in the documented [0, 1000] range and every
weight (clamped to [0, 1] by the function), `updateTrustScore s s w = s`. -/
theorem updateTrustScore_self (s : ℤ) (w : ℚ) (h0 : 0 ≤ s) (h1 : s ≤ 1000) :
    updateTrustScore (s : ℚ) (s : ℚ) w = s := by
  unfold updateTrustScore jround
  have hblend : (s : ℚ) * (1 - max 0 (min 1 w)) + (s : ℚ) * max 0 (min 1 w) = (s : ℚ) := by
    ring
  simp only [hblend, Int.floor_int_add,
    show ⌊(1/2 : ℚ)⌋ = 0 from by norm_num [Int.floor_eq_zero_iff]]
  omega

/-- Witness for C8: score 700 with an out-of-range weight (clamped to 1). -/
theorem updateTrustScore_self_witness : updateTrustScore 700 700 5 = 700 := by
  have := updateTrustScore_self 700 5 (by decide) (by decide)
  exact_mod_cast this

/-! ### Correlation lemmas -/

/-- A fold that adds the same value to all three accumulator components
computes the same sum in each component. -/
theorem foldl_triple_add_same {α : Type} (g : α → ℚ) (l : List α) (acc : ℚ × ℚ × ℚ) :
    l.foldl (fun acc x => (acc.1 + g x, acc.2.1 + g x, acc.2.2 + g x)) acc =
      (acc.1 + (l.map g).sum, acc.2.1 + (l.map g).sum, acc.2.2 + (l.map g).sum) := by
  induction l generalizing acc with
  | nil => simp
  | cons x t ih => simp [ih, add_assoc]

/-- Comparing an array with itself makes all three accumulators of
`calculateCorrelation` equal to the squared-deviation sum. -/
theorem corrComps_self (p : List Bool) :
    corrComps p p = (varSum p, varSum p, varSum p) := by
  unfold corrComps varSum diffAt
  simpa using foldl_triple_add_same
    (fun i => ((numList p).getD i 0 - listMean (numList p)) *
      ((numList p).getD i 0 - listMean (numList p)))
    (List.range p.length) (0, 0, 0)

/-- The squared-deviation sum is non-negative. -/
theorem varSum_nonneg (p : List Bool) : 0 ≤ varSum p := by
  refine List.sum_nonneg ?_
  intro x hx
  obtain ⟨i, _, rfl⟩ := List.mem_map.mp hx
  exact mul_self_nonneg _

/-- The entry the correlation loop reads at an in-range index of the
{0,1}-coded list. -/
theorem numList_getD (p : List Bool) (i : ℕ) (h : i < p.length) :
    (numList p).getD i 0 = if p[i] then 1 else 0 := by
  rw [numList, List.getD_eq_getElem?_getD,
    List.getElem?_eq_getElem (by simpa using h), List.getElem_map]
  rfl

/-- A vote sequence containing both a `true` and a `false` has positive
squared-deviation sum. -/
theorem varSum_pos (p : List Bool) (ht : true ∈ p) (hf : false ∈ p) :
    0 < varSum p := by
  obtain ⟨it, hit, hpt⟩ := List.getElem_of_mem ht
  obtain ⟨jf, hjf, hpf⟩ := List.getElem_of_mem hf
  have hnn : ∀ x ∈ (List.range p.length).map (fun i => diffAt p i * diffAt p i), 0 ≤ x := by
    intro x hx
    obtain ⟨i, _, rfl⟩ := List.mem_map.mp hx
    exact mul_self_nonneg _
  by_cases hm : listMean (numList p) = 1
  · have hterm : diffAt p jf * diffAt p jf = 1 := by
      rw [diffAt, numList_getD p jf hjf, hpf, hm]
      norm_num
    have hmem : diffAt p jf * diffAt p jf ∈
        (List.range p.length).map (fun i => diffAt p i * diffAt p i) :=
      List.mem_map_of_mem _ (List.mem_range.mpr hjf)
    have := List.single_le_sum hnn _ hmem
    rw [varSum]
    linarith [hterm ▸ this]
  · have hne : diffAt p it ≠ 0 := by
      rw [diffAt, numList_getD p it hit, hpt]
      simpa [sub_eq_zero] using fun hc => hm hc.symm
    have hterm : 0 < diffAt p it * diffAt p it := mul_self_pos.mpr hne
    have hmem : diffAt p it * diffAt p it ∈
        (List.range p.length).map (fun i => diffAt p i * diffAt p i) :=
      List.mem_map_of_mem _ (List.mem_range.mpr hit)
    have := List.single_le_sum hnn _ hmem
    rw [varSum]
    linarith

/-- Correlation of a vote sequence with itself: 1 when the squared
deviations do not vanish, 0 when they do (the source's zero-variance
fallback). -/
theorem calculateCorrelation_self (p : List Bool) (hp : p ≠ []) :
    calculateCorrelation p p = if 0 < varSum p then 1 else 0 := by
  have hlen : 0 < p.length := List.length_pos.mpr hp
  unfold calculateCorrelation
  rw [if_pos ⟨hlen, le_refl _⟩, corrComps_self]
  have hsqrt : Real.sqrt ((varSum p : ℝ) * (varSum p : ℝ)) = (varSum p : ℝ) :=
    Real.sqrt_mul_self (by exact_mod_cast varSum_nonneg p)
  simp only [hsqrt]
  by_cases hv : 0 < varSum p
  · rw [if_pos (by exact_mod_cast hv), if_pos hv]
    exact div_self (by exact_mod_cast ne_of_gt hv)
  · rw [if_neg (by exact_mod_cast hv), if_neg hv]

/-- A first array longer than the second makes the correlation loop read
the second array out of bounds; the resulting `NaN` denominator fails the
`> 0` comparison and the source returns 0. -/
theorem calculateCorrelation_oob (a b : List Bool) (h : b.length < a.length) :
    calculateCorrelation a b = 0 := by
  unfold calculateCorrelation
  rw [if_neg (by omega)]

/-! ### Collusion-loop lemmas -/

/-- The suspects list only grows along the pair loop: one step preserves
membership. -/
theorem collusionStep_mem_mono (v : List ValidationResult) (ids : List String)
    (acc : List String × ℝ) (p : ℕ × ℕ) (x : String) (hx : x ∈ acc.1) :
    x ∈ (collusionStep v ids acc p).1 := by
  unfold collusionStep
  dsimp only
  split
  · exact hx
  · split
    · simp only
      split <;> split <;> simp_all [List.mem_append]
    · exact hx

/-- The suspects list only grows along the pair loop: the whole fold
preserves membership. -/
theorem collusionFold_mem_mono (v : List ValidationResult) (ids : List String)
    (l : List (ℕ × ℕ)) (acc : List String × ℝ) (x : String) (hx : x ∈ acc.1) :
    x ∈ (l.foldl (collusionStep v ids) acc).1 := by
  induction l generalizing acc with
  | nil => exact hx
  | cons p t ih => exact ih _ (collusionStep_mem_mono v ids acc p x hx)

/-- A flagged pair contributes both of its validators to the suspects list
in the step that visits it. -/
theorem collusionStep_mem_of_flag (v : List ValidationResult) (ids : List String)
    (acc : List String × ℝ) (p : ℕ × ℕ) (hflag : pairFlagged v ids p = true) :
    ids.getD p.1 "" ∈ (collusionStep v ids acc p).1 ∧
      ids.getD p.2 "" ∈ (collusionStep v ids acc p).1 := by
  unfold pairFlagged at hflag
  unfold collusionStep
  by_cases hc : min (votePattern v (ids.getD p.1 "")).length
      (votePattern v (ids.getD p.2 "")).length < 5
  · rw [if_pos hc] at hflag
    exact absurd hflag (by simp)
  · rw [if_neg hc] at hflag
    have hcorr := of_decide_eq_true hflag
    rw [if_neg hc, if_pos hcorr]
    constructor
    · simp only
      split <;> split <;> simp_all [List.mem_append]
    · simp only
      split <;> split <;> simp_all [List.mem_append]

/-- A pair flagged anywhere in the visited pair list ends up with both of
its validators in the folded suspects list. -/
theorem collusionFold_mem_of_flag (v : List ValidationResult) (ids : List String)
    (l : List (ℕ × ℕ)) (acc : List String × ℝ) (p : ℕ × ℕ) (hp : p ∈ l)
    (hflag : pairFlagged v ids p = true) :
    ids.getD p.1 "" ∈ (l.foldl (collusionStep v ids) acc).1 ∧
      ids.getD p.2 "" ∈ (l.foldl (collusionStep v ids) acc).1 := by
  induction l generalizing acc with
  | nil => cases hp
  | cons q t ih =>
    rcases List.mem_cons.mp hp with rfl | hmem
    · simp only [List.foldl_cons]
      obtain ⟨h1, h2⟩ := collusionStep_mem_of_flag v ids acc p hflag
      exact ⟨collusionFold_mem_mono v ids t _ _ h1, collusionFold_mem_mono v ids t _ _ h2⟩
    · exact ih _ hmem

/-- The running-maximum component of one pair-loop step, phrased through
`pairFlagged` and `pairCorrelation`. -/
theorem collusionStep_snd (v : List ValidationResult) (ids : List String)
    (acc : List String × ℝ) (p : ℕ × ℕ) :
    (collusionStep v ids acc p).2 =
      if pairFlagged v ids p = true then max acc.2 (pairCorrelation v ids p) else acc.2 := by
  by_cases hc : min (votePattern v (ids.getD p.1 "")).length
      (votePattern v (ids.getD p.2 "")).length < 5
  · have h1 : collusionStep v ids acc p = acc := by
      unfold collusionStep
      rw [if_pos hc]
    have h2 : pairFlagged v ids p = false := by
      unfold pairFlagged
      rw [if_pos hc]
    rw [h1, h2]
    simp
  · by_cases hcor : (9/10 : ℝ) < calculateCorrelation (votePattern v (ids.getD p.1 ""))
        (votePattern v (ids.getD p.2 ""))
    · have h2 : pairFlagged v ids p = true := by
        unfold pairFlagged
        rw [if_neg hc]
        exact decide_eq_true hcor
      have h1 : (collusionStep v ids acc p).2 = max acc.2 (pairCorrelation v ids p) := by
        unfold collusionStep pairCorrelation
        rw [if_neg hc, if_pos hcor]
      rw [h1, h2]
      simp
    · have h2 : pairFlagged v ids p = false := by
        unfold pairFlagged
        rw [if_neg hc]
        exact decide_eq_false hcor
      have h1 : collusionStep v ids acc p = acc := by
        unfold collusionStep
        rw [if_neg hc, if_neg hcor]
      rw [h1, h2]
      simp

/-- The running maximum computed by the pair loop is the `max`-fold of the
correlations of the flagged pairs among the visited pairs. -/
theorem collusionFold_snd (v : List ValidationResult) (ids : List String)
    (l : List (ℕ × ℕ)) (acc : List String × ℝ) :
    (l.foldl (collusionStep v ids) acc).2 =
      ((l.filter (pairFlagged v ids)).map (pairCorrelation v ids)).foldl max acc.2 := by
  induction l generalizing acc with
  | nil => rfl
  | cons p t ih =>
    simp only [List.foldl_cons]
    rw [ih]
    by_cases hf : pairFlagged v ids p = true
    · rw [List.filter_cons_of_pos hf]
      simp only [List.map_cons, List.foldl_cons]
      rw [collusionStep_snd, if_pos hf]
    · rw [List.filter_cons_of_neg (by simpa using hf)]
      rw [collusionStep_snd, if_neg hf]

/-- Index pairs `i < j < n` are visited by the pair loop. -/
theorem pairIndices_mem (i j n : ℕ) (hij : i < j) (hj : j < n) :
    (i, j) ∈ pairIndices n := by
  unfold pairIndices
  simp only [List.mem_flatMap, List.mem_map, List.mem_filter, List.mem_range,
    decide_eq_true_eq]
  exact ⟨i, lt_trans hij hj, j, ⟨hj, hij⟩, rfl⟩

/-- Claim C5 (amended): for validators at positions `i < j` whose collected
vote sequences are identical, non-constant, and at least 5 long (with the
outer guards met), `detectCollusion` computes correlation 1 for the pair,
places both validators in the suspects, and reports `probability` equal to
the maximum correlation over all flagged pairs. -/
theorem detectCollusion_identical_patterns (v : List ValidationResult)
    (ids : List String) (i j : ℕ) (h5 : 5 ≤ v.length) (h2 : 2 ≤ ids.length)
    (hij : i < j) (hj : j < ids.length)
    (hpat : votePattern v (ids.getD i "") = votePattern v (ids.getD j ""))
    (hlen : 5 ≤ (votePattern v (ids.getD i "")).length)
    (ht : true ∈ votePattern v (ids.getD i ""))
    (hf : false ∈ votePattern v (ids.getD i "")) :
    calculateCorrelation (votePattern v (ids.getD i ""))
        (votePattern v (ids.getD j "")) = 1 ∧
      ids.getD i "" ∈ (detectCollusion v ids).suspects ∧
      ids.getD j "" ∈ (detectCollusion v ids).suspects ∧
      (detectCollusion v ids).probability = maxFlaggedCorrelation v ids := by
  have hne : votePattern v (ids.getD i "") ≠ [] := by
    intro hnil
    rw [hnil] at hlen
    simp at hlen
  have hvar : 0 < varSum (votePattern v (ids.getD i "")) := varSum_pos _ ht hf
  have hcorr : calculateCorrelation (votePattern v (ids.getD i ""))
      (votePattern v (ids.getD j "")) = 1 := by
    rw [← hpat, calculateCorrelation_self _ hne, if_pos hvar]
  have hflag : pairFlagged v ids (i, j) = true := by
    unfold pairFlagged
    rw [if_neg (by dsimp only; rw [← hpat, min_self]; omega)]
    exact decide_eq_true (by dsimp only; rw [hcorr]; norm_num)
  have hguard : ¬(v.length < 5 ∨ ids.length < 2) := by omega
  have hmem := collusionFold_mem_of_flag v ids (pairIndices ids.length) ([], 0) (i, j)
    (pairIndices_mem i j ids.length hij hj) hflag
  refine ⟨hcorr, ?_, ?_, ?_⟩
  · unfold detectCollusion
    rw [if_neg hguard]
    exact hmem.1
  · unfold detectCollusion
    rw [if_neg hguard]
    exact hmem.2
  · unfold detectCollusion maxFlaggedCorrelation
    rw [if_neg hguard]
    exact collusionFold_snd v ids (pairIndices ids.length) ([], 0)

/-- Witness for C5 at `identicalHistory`: validators "A" and "B" with
identical non-constant vote sequences of length 5. -/
theorem detectCollusion_identical_patterns_witness :
    calculateCorrelation (votePattern identicalHistory (["A", "B"].getD 0 ""))
        (votePattern identicalHistory (["A", "B"].getD 1 "")) = 1 ∧
      (["A", "B"] : List String).getD 0 "" ∈
        (detectCollusion identicalHistory ["A", "B"]).suspects ∧
      (["A", "B"] : List String).getD 1 "" ∈
        (detectCollusion identicalHistory ["A", "B"]).suspects ∧
      (detectCollusion identicalHistory ["A", "B"]).probability =
        maxFlaggedCorrelation identicalHistory ["A", "B"] :=
  detectCollusion_identical_patterns identicalHistory ["A", "B"] 0 1
    (by decide) (by decide) (by decide) (by decide) (by decide) (by decide)
    (by decide) (by decide)

/-- Counterexample to C5 as stated: five byte-identical but constant
(all-true) shared votes give a zero-variance pattern, the source's
correlation fallback returns 0 — not 1.0 — and nobody is suspected. -/
theorem detectCollusion_constant_identical :
    votePattern constantHistory "A" = votePattern constantHistory "B" ∧
      (votePattern constantHistory "A").length = 5 ∧
      calculateCorrelation (votePattern constantHistory "A")
          (votePattern constantHistory "B") = 0 ∧
      calculateCorrelation (votePattern constantHistory "A")
          (votePattern constantHistory "B") ≠ 1 ∧
      detectCollusion constantHistory ["A", "B"] = ⟨false, 0, []⟩ := by
  have hA : votePattern constantHistory "A" = [true, true, true, true, true] := by decide
  have hB : votePattern constantHistory "B" = [true, true, true, true, true] := by decide
  have hcorr : calculateCorrelation (votePattern constantHistory "A")
      (votePattern constantHistory "B") = 0 := by
    rw [hA, hB, calculateCorrelation_self _ (by decide),
      if_neg (by norm_num [varSum, diffAt, numList, listMean, List.range_succ])]
  have hc : calculateCorrelation (votePattern constantHistory (["A", "B"].getD 0 ""))
      (votePattern constantHistory (["A", "B"].getD 1 "")) = 0 := hcorr
  have hstep : collusionStep constantHistory ["A", "B"] ([], 0) (0, 1) = ([], 0) := by
    unfold collusionStep
    rw [if_neg (by decide), if_neg (by rw [hc]; norm_num)]
  have hpairs : pairIndices (["A", "B"] : List String).length = [(0, 1)] := by decide
  refine ⟨hA.trans hB.symm, by rw [hA]; rfl, hcorr, by rw [hcorr]; norm_num, ?_⟩
  unfold detectCollusion
  rw [if_neg (by decide), hpairs]
  simp only [List.foldl_cons, List.foldl_nil, hstep]
  rfl

/-- Claim C6 (divergence evidence): validators "A" and "B" share only 4
past rounds, yet `detectCollusion` flags them both — the source compares
the min of their individual participation counts (5 and 5) against the
threshold and correlates their full vote sequences positionally, so the
staggered but identical sequences correlate to 1. -/
theorem detectCollusion_four_shared_claims :
    specSharedClaimCount staggeredHistory "A" "B" = 4 ∧
      detectCollusion staggeredHistory ["A", "B"] = ⟨true, 1, ["A", "B"]⟩ := by
  have hA : votePattern staggeredHistory "A" = [true, true, false, true, false] := by decide
  have hB : votePattern staggeredHistory "B" = [true, true, false, true, false] := by decide
  have hcorr : calculateCorrelation (votePattern staggeredHistory (["A", "B"].getD 0 ""))
      (votePattern staggeredHistory (["A", "B"].getD 1 "")) = 1 := by
    show calculateCorrelation (votePattern staggeredHistory "A")
      (votePattern staggeredHistory "B") = 1
    rw [hA, hB, calculateCorrelation_self _ (by decide),
      if_pos (by norm_num [varSum, diffAt, numList, listMean, List.range_succ])]
  have hstep : collusionStep staggeredHistory ["A", "B"] ([], 0) (0, 1) = (["A", "B"], 1) := by
    unfold collusionStep
    rw [if_neg (by decide), if_pos (by rw [hcorr]; norm_num)]
    rw [hcorr]
    norm_num
    decide
  have hpairs : pairIndices (["A", "B"] : List String).length = [(0, 1)] := by decide
  refine ⟨by decide, ?_⟩
  unfold detectCollusion
  rw [if_neg (by decide), hpairs]
  simp only [List.foldl_cons, List.foldl_nil, hstep]
  rfl

/-- When a validator submits at most one opinion per past result, the
length of its collected vote-pattern array equals the number of past
results it participates in. -/
theorem votePattern_length (h : List ValidationResult) (id : String)
    (hid : ∀ r ∈ h, r.validations.countP (fun v => v.validator = id) ≤ 1) :
    (votePattern h id).length = specParticipationCount h id := by
  induction h with
  | nil => rfl
  | cons r t ih =>
    have hr := hid r (List.mem_cons_self r t)
    have ihx := ih (fun x hx => hid x (List.mem_cons_of_mem r hx))
    simp only [votePattern, specParticipationCount, List.flatMap_cons, List.filter_append,
      List.map_append, List.length_append, List.filter_cons] at ihx ⊢
    by_cases hp : specParticipates r id = true
    · rw [if_pos hp, List.length_cons]
      have h1 : 0 < r.validations.countP (fun v => v.validator = id) :=
        List.countP_pos_iff.mpr
          (by simpa [specParticipates, List.any_eq_true] using hp)
      have hc : (r.validations.filter (fun v => v.validator = id)).length = 1 := by
        rw [← List.countP_eq_length_filter]
        omega
      rw [List.length_map, hc, ihx]
      omega
    · rw [if_neg hp]
      have hp2 : ∀ a ∈ r.validations, ¬a.validator = id := by
        simpa [specParticipates, List.any_eq_true] using hp
      have hc : (r.validations.filter (fun v => v.validator = id)).length = 0 := by
        rw [← List.countP_eq_length_filter, List.countP_eq_zero]
        intro a ha
        simpa using hp2 a ha
      rw [List.length_map, hc, ihx]
      omega

/-- Claim C10 (amended): the vote-pattern arrays the pair loop hands to
`calculateCorrelation` have lengths equal to the two validators'
participation counts (one opinion per result), so they are equal exactly
when those counts coincide; when the first array is longer, the loop reads
the second array out of bounds and the `NaN`-poisoned denominator makes the
correlation 0 — no exception is raised. -/
theorem votePattern_length_correlation (h : List ValidationResult) (A B : String)
    (hA : ∀ r ∈ h, r.validations.countP (fun v => v.validator = A) ≤ 1)
    (hB : ∀ r ∈ h, r.validations.countP (fun v => v.validator = B) ≤ 1) :
    (votePattern h A).length = specParticipationCount h A ∧
      (votePattern h B).length = specParticipationCount h B ∧
      (specParticipationCount h A = specParticipationCount h B →
        (votePattern h A).length = (votePattern h B).length) ∧
      ((votePattern h B).length < (votePattern h A).length →
        calculateCorrelation (votePattern h A) (votePattern h B) = 0) := by
  have h1 := votePattern_length h A hA
  have h2 := votePattern_length h B hB
  exact ⟨h1, h2, fun hc => by rw [h1, h2, hc],
    fun hlt => calculateCorrelation_oob _ _ hlt⟩

/-- Witness for C10 (amended) at `lopsidedHistory`: participation counts 6
and 5, so the arrays differ in length and the performed comparison yields
correlation 0. -/
theorem votePattern_length_correlation_witness :
    (votePattern lopsidedHistory "A").length = specParticipationCount lopsidedHistory "A" ∧
      (votePattern lopsidedHistory "B").length = specParticipationCount lopsidedHistory "B" ∧
      (specParticipationCount lopsidedHistory "A" = specParticipationCount lopsidedHistory "B" →
        (votePattern lopsidedHistory "A").length = (votePattern lopsidedHistory "B").length) ∧
      ((votePattern lopsidedHistory "B").length < (votePattern lopsidedHistory "A").length →
        calculateCorrelation (votePattern lopsidedHistory "A")
          (votePattern lopsidedHistory "B") = 0) :=
  votePattern_length_correlation lopsidedHistory "A" "B" (by decide) (by decide)

/-- Counterexample to C10 as stated: in `lopsidedHistory` the two
validators participate in 6 and 5 past results, the pair loop's count check
(min 6 5 = 5, not below 5) does not skip the pair, `pairIndices` visits it,
and the two arrays passed to `calculateCorrelation` have unequal lengths
6 ≠ 5, so the correlation loop does read the second array out of bounds. -/
theorem detectCollusion_unequal_lengths :
    (votePattern lopsidedHistory "A").length = 6 ∧
      (votePattern lopsidedHistory "B").length = 5 ∧
      ¬(min (votePattern lopsidedHistory ((["A", "B"] : List String).getD 0 "")).length
          (votePattern lopsidedHistory ((["A", "B"] : List String).getD 1 "")).length < 5) ∧
      pairIndices (["A", "B"] : List String).length = [(0, 1)] := by
  refine ⟨by decide, by decide, by decide, by decide⟩

/-! ### Consensus-proof lemmas -/

/-- The char-code order is total. -/
theorem charListLe_total : ∀ a b : List Char, charListLe a b = true ∨ charListLe b a = true := by
  intro a
  induction a with
  | nil =>
    intro b
    left
    rfl
  | cons x as ih =>
    intro b
    cases b with
    | nil =>
      right
      rfl
    | cons y bs =>
      by_cases h1 : x.toNat < y.toNat
      · left
        simp [charListLe, h1]
      · by_cases h2 : y.toNat < x.toNat
        · right
          simp [charListLe, h1, h2]
        · rcases ih bs with h | h
          · left
            simp [charListLe, h1, h2, h]
          · right
            simp [charListLe, h1, h2, h]

/-- The char-code order is transitive. -/
theorem charListLe_trans : ∀ a b c : List Char,
    charListLe a b = true → charListLe b c = true → charListLe a c = true := by
  intro a
  induction a with
  | nil =>
    intro b c _ _
    rfl
  | cons x as ih =>
    intro b c hab hbc
    cases b with
    | nil => simp [charListLe] at hab
    | cons y bs =>
      cases c with
      | nil => simp [charListLe] at hbc
      | cons z cs =>
        simp only [charListLe] at hab hbc ⊢
        split_ifs at hab hbc ⊢ <;> try omega
        all_goals try rfl
        all_goals exact ih bs cs hab hbc

/-- The char-code order is antisymmetric. -/
theorem charListLe_antisymm : ∀ a b : List Char,
    charListLe a b = true → charListLe b a = true → a = b := by
  intro a
  induction a with
  | nil =>
    intro b _ hba
    cases b with
    | nil => rfl
    | cons y bs => simp [charListLe] at hba
  | cons x as ih =>
    intro b hab hba
    cases b with
    | nil => simp [charListLe] at hab
    | cons y bs =>
      simp only [charListLe] at hab hba
      split_ifs at hab hba <;> try omega
      have hxy : x = y := Char.eq_of_val_eq (UInt32.ext (show x.toNat = y.toNat by omega))
      rw [hxy, ih bs hab hba]

/-- The string comparator is antisymmetric. -/
theorem stringLe_antisymm (a b : String) (hab : stringLe a b = true)
    (hba : stringLe b a = true) : a = b := by
  have h := charListLe_antisymm a.data b.data hab hba
  cases a
  cases b
  exact congrArg String.mk h

/-- Two sorted permutations of each other with pairwise-distinct validator
ids are equal: the sort inside `hashValidations` is canonical when no
validator id repeats. -/
theorem sorted_perm_nodup_validator_eq :
    ∀ {l₁ l₂ : List Validation}, l₁.Perm l₂ →
      l₁.Sorted (fun a b => stringLe a.validator b.validator = true) →
      l₂.Sorted (fun a b => stringLe a.validator b.validator = true) →
      (l₁.map (fun v => v.validator)).Nodup → l₁ = l₂ := by
  intro l₁
  induction l₁ with
  | nil =>
    intro l₂ hp _ _ _
    exact hp.nil_eq
  | cons a t ih =>
    intro l₂ hp hs1 hs2 hnd
    cases l₂ with
    | nil => exact absurd hp.length_eq (by simp)
    | cons b t₂ =>
      have hab : a = b := by
        by_contra hne
        have haIn : a ∈ b :: t₂ := hp.mem_iff.mp (List.mem_cons_self a t)
        have hbIn : b ∈ a :: t := hp.mem_iff.mpr (List.mem_cons_self b t₂)
        have ha2 : a ∈ t₂ := by
          rcases List.mem_cons.mp haIn with h | h
          · exact absurd h hne
          · exact h
        have hb1 : b ∈ t := by
          rcases List.mem_cons.mp hbIn with h | h
          · exact absurd h.symm hne
          · exact h
        have h1 : stringLe a.validator b.validator = true := List.rel_of_sorted_cons hs1 b hb1
        have h2 : stringLe b.validator a.validator = true := List.rel_of_sorted_cons hs2 a ha2
        have heq : a.validator = b.validator := stringLe_antisymm _ _ h1 h2
        have hnd2 : (a.validator :: t.map (fun v => v.validator)).Nodup := by
          simpa only [List.map_cons] using hnd
        have hnot := (List.nodup_cons.mp hnd2).1
        exact hnot (by rw [heq]; exact List.mem_map_of_mem _ hb1)
      subst hab
      have hp2 := hp.cons_inv
      have hnd2 : (a.validator :: t.map (fun v => v.validator)).Nodup := by
        simpa only [List.map_cons] using hnd
      rw [ih hp2 hs1.of_cons hs2.of_cons (List.nodup_cons.mp hnd2).2]

/-- With pairwise-distinct validator ids, `hashValidations` is invariant
under permutation of the opinion list. -/
theorem hashValidations_perm (l₁ l₂ : List Validation) (hp : l₁.Perm l₂)
    (hnd : (l₁.map (fun v => v.validator)).Nodup) :
    hashValidations l₁ = hashValidations l₂ := by
  haveI : IsTotal Validation (fun a b => stringLe a.validator b.validator = true) :=
    ⟨fun a b => charListLe_total _ _⟩
  haveI : IsTrans Validation (fun a b => stringLe a.validator b.validator = true) :=
    ⟨fun a b c h1 h2 => charListLe_trans _ _ _ h1 h2⟩
  have hperm1 := List.perm_insertionSort
    (fun a b : Validation => stringLe a.validator b.validator = true) l₁
  have hperm2 := List.perm_insertionSort
    (fun a b : Validation => stringLe a.validator b.validator = true) l₂
  have hs : sortByValidator l₁ = sortByValidator l₂ := by
    unfold sortByValidator
    apply sorted_perm_nodup_validator_eq
    · exact hperm1.trans (hp.trans hperm2.symm)
    · exact List.sorted_insertionSort
        (fun a b : Validation => stringLe a.validator b.validator = true) l₁
    · exact List.sorted_insertionSort
        (fun a b : Validation => stringLe a.validator b.validator = true) l₂
    · exact ((hperm1.map (fun v => v.validator)).nodup_iff).mpr hnd
  unfold hashValidations
  rw [hs]

/-- Claim C9 (amended): `generateConsensusProof` is a pure function of the
result content, and for results whose opinions carry pairwise-distinct
validator ids its output is invariant under any permutation of the
validations list. -/
theorem generateConsensusProof_perm (r₁ r₂ : ValidationResult)
    (hid : r₁.dataId = r₂.dataId) (hcr : r₁.consensusRatio = r₂.consensusRatio)
    (hts : r₁.timestamp = r₂.timestamp) (hp : r₁.validations.Perm r₂.validations)
    (hnd : (r₁.validations.map (fun v => v.validator)).Nodup) :
    generateConsensusProof r₁ = generateConsensusProof r₂ := by
  unfold generateConsensusProof
  rw [hid, hcr, hts, hp.length_eq, hashValidations_perm _ _ hp hnd]

/-- Witness for C9 (amended): two distinct-id opinions in swapped order
produce the same proof bytes. -/
theorem generateConsensusProof_perm_witness :
    generateConsensusProof ⟨"w", true, 5, 7, 1, [⟨"b", true, 5, 1⟩, ⟨"a", false, 7, 2⟩], 3⟩ =
      generateConsensusProof ⟨"w", true, 5, 7, 1, [⟨"a", false, 7, 2⟩, ⟨"b", true, 5, 1⟩], 3⟩ :=
  generateConsensusProof_perm _ _ rfl rfl rfl (by decide) (by decide)

/-- Counterexample to C9 as stated: when the same validator id appears
twice, the stable sort keeps the arrival order of the tied entries, so
swapping them changes the hashed string and the proof bytes — the digest is
not invariant under permutation of the validations list. -/
theorem generateConsensusProof_dup_perm_sensitive :
    dupRound₁.validations.Perm dupRound₂.validations ∧
      dupRound₁.dataId = dupRound₂.dataId ∧
      dupRound₁.consensusRatio = dupRound₂.consensusRatio ∧
      dupRound₁.timestamp = dupRound₂.timestamp ∧
      generateConsensusProof dupRound₁ ≠ generateConsensusProof dupRound₂ := by
  refine ⟨by decide, rfl, rfl, rfl, by set_option maxRecDepth 10000 in decide⟩

end ZeekOracle
